import Mathlib

/-!
# Route matching and navigation in the react-router-v5 examples

A shallow embedding of the example applications of the repository
(`1-url-params`, `06-404-handling`, `09-sidebars-breadcrumbs`,
`10-customized-links`, `13-protected-routes`, `14-preventing-transition`,
`15-route-config`, `5-querystring`).  The examples are React components wired
to a router library; the library itself is not part of the repository, so the
path matcher, the route resolver and the navigation controller are modelled
from the specification (sections 4.1 to 4.3), and the components and route
tables are transcribed from the example sources.
-/

namespace ReactRouterV5

/-! ## PathMatcher (specification section 4.1) -/

/-- Splits a character sequence at every `/`; the pieces never contain `/`. -/
def splitOnSlash : List Char → List (List Char)
  | [] => [[]]
  | c :: cs =>
    if c = '/' then [] :: splitOnSlash cs
    else
      match splitOnSlash cs with
      | [] => [[c]]
      | s :: ss => (c :: s) :: ss

/-- Modelled from the spec: the trailing-slash normalisation of section 4.1,
"a trailing `/` is stripped before comparison except for the root path `/`". -/
def normalizeChars (p : List Char) : List Char :=
  if p = ['/'] then p
  else if p.getLast? = some '/' then p.dropLast
  else p

/-- Modelled from the spec: trailing-slash normalisation on path strings. -/
def normalizePath (p : String) : String :=
  String.mk (normalizeChars p.data)

/-- Modelled from the spec: the `/`-separated segments of a path or of a
pattern string (section 4.1, "segments separated by `/`"), taken after
normalisation and after the leading `/`.  The root path has no segment; a
string that does not begin with `/` (such as the pattern `*`) is split as it
stands. -/
def pathSegments (p : String) : List String :=
  match normalizeChars p.data with
  | [] => [""]
  | c :: rest =>
    if c = '/' then
      (if rest = [] then [] else (splitOnSlash rest).map String.mk)
    else (splitOnSlash (c :: rest)).map String.mk

/-- Modelled from the spec: a segment specifier of a compiled pattern
(section 3, `RoutePattern`): literal, named parameter or wildcard. -/
inductive SegmentSpec where
  | literal (s : String)
  | param (name : String)
  | wildcard
  deriving DecidableEq, Repr

/-- Modelled from the spec: a compiled pattern, an ordered sequence of segment
specifiers (section 3). -/
abbrev RoutePattern := List SegmentSpec

/-- Modelled from the spec: the failure of pattern compilation,
`InvalidPatternError` (section 7). -/
inductive PatternError where
  | invalidPattern
  deriving DecidableEq, Repr

/-- Modelled from the spec: classification of one pattern segment.  A segment
beginning with `:` is a named parameter, a segment that is exactly `*` is the
wildcard, anything else is a literal. -/
def classifySegment (s : String) : SegmentSpec :=
  match s.data with
  | [] => SegmentSpec.literal s
  | c :: rest =>
    if c = ':' then SegmentSpec.param (String.mk rest)
    else if c = '*' ∧ rest = [] then SegmentSpec.wildcard
    else SegmentSpec.literal s

/-- Modelled from the spec: the parameter names of a pattern, in order; a
pattern that repeats one does not compile (section 4.1). -/
def paramNames : RoutePattern → List String
  | [] => []
  | SegmentSpec.param n :: ps => n :: paramNames ps
  | _ :: ps => paramNames ps

/-- Modelled from the spec: whether the wildcard, if any, is the last segment
(section 3, invariant of `RoutePattern`). -/
def wildcardOnlyLast : RoutePattern → Bool
  | [] => true
  | [_] => true
  | SegmentSpec.wildcard :: _ :: _ => false
  | _ :: p :: ps => wildcardOnlyLast (p :: ps)

/-- Modelled from the spec: `compile(patternString)`.  Compilation fails when
a wildcard appears before the final segment or a parameter name is repeated. -/
def compile (pattern : String) : Except PatternError RoutePattern :=
  let segs := (pathSegments pattern).map classifySegment
  if wildcardOnlyLast segs ∧ (paramNames segs).Nodup then Except.ok segs
  else Except.error PatternError.invalidPattern

/-- Modelled from the spec: the outcome of matching segments, that is the
extracted parameters, the segments the pattern consumed, and the segments
left over. -/
structure SegMatch where
  params : List (String × String)
  matched : List String
  remaining : List String
  deriving DecidableEq, Repr

/-- Modelled from the spec: the implicit parameter name under which the
wildcard captures the trailing segments (section 4.1 leaves the name open). -/
def wildcardName : String := "*"

/-- Modelled from the spec: segments joined back into a path beginning with
`/`, for `matchedPath` and `remainingPath` (section 3). -/
def joinSegments : List String → String
  | [] => "/"
  | s :: ss => "/" ++ s ++ (if ss = [] then "" else joinSegments ss)

/-- Modelled from the spec: segment-wise matching.  A literal matches the
equal segment (case-sensitively), a parameter matches exactly one non-empty
segment, the wildcard matches all the trailing segments (zero or more), and
the end of the pattern leaves the rest of the path as the remainder. -/
def matchSegments : RoutePattern → List String → Option SegMatch
  | [], rest => some ⟨[], [], rest⟩
  | SegmentSpec.wildcard :: _, rest =>
    some ⟨[(wildcardName, String.intercalate "/" rest)], rest, []⟩
  | SegmentSpec.literal _ :: _, [] => none
  | SegmentSpec.param _ :: _, [] => none
  | SegmentSpec.literal l :: ps, s :: ss =>
    if s = l then
      (matchSegments ps ss).map (fun m => ⟨m.params, s :: m.matched, m.remaining⟩)
    else none
  | SegmentSpec.param n :: ps, s :: ss =>
    if s = "" then none
    else
      (matchSegments ps ss).map
        (fun m => ⟨(n, s) :: m.params, s :: m.matched, m.remaining⟩)

/-- Modelled from the spec: the result of `match(pattern, path, exact)`
(section 3, `MatchResult` without the handler key). -/
structure PathMatch where
  params : List (String × String)
  matchedPath : String
  remainingPath : String
  deriving DecidableEq, Repr

/-- Modelled from the spec: `match(pattern, path, exact)`.  With `exact` the
whole path has to be consumed; without it the pattern may match a leading
portion and `remainingPath` holds the unmatched suffix.  A pattern that does
not compile matches nothing. -/
def matchPath (pattern : String) (path : String) (exact : Bool) : Option PathMatch :=
  match compile pattern with
  | Except.error _ => none
  | Except.ok pat =>
    match matchSegments pat (pathSegments path) with
    | none => none
    | some m =>
      if exact ∧ m.remaining ≠ [] then none
      else
        some ⟨m.params, joinSegments m.matched,
          if m.remaining = [] then "" else joinSegments m.remaining⟩

/-- Modelled from the spec: the value of a named parameter of a match, as
`useParams()` hands it to a component; `undefined` (here `none`) when
absent. -/
def lookupParam (name : String) : List (String × String) → Option String
  | [] => none
  | (k, v) :: rest => if k = name then some v else lookupParam name rest

/-! ## Router (specification section 4.2) -/

/-- Modelled from the spec: a registered route, that is a pattern bound to a
handler key, with its exactness flag (section 3, `Route`).  A `<Route>`
element without `exact` has `exact = false`. -/
structure Route (H : Type) where
  path : String
  handlerKey : H
  exact : Bool
  deriving DecidableEq, Repr

/-- Modelled from the spec: the result of resolving a path against a route
(section 3, `MatchResult`). -/
structure MatchResult (H : Type) where
  handlerKey : H
  params : List (String × String)
  matchedPath : String
  remainingPath : String
  deriving DecidableEq, Repr

/-- Modelled from the spec: one route matched against a path, respecting the
route's exactness (section 4.2). -/
def matchRoute {H : Type} (r : Route H) (path : String) : Option (MatchResult H) :=
  (matchPath r.path path r.exact).map
    (fun m => ⟨r.handlerKey, m.params, m.matchedPath, m.remainingPath⟩)

/-- Modelled from the spec: `resolveFirst(path)`, the first route in
registration order whose pattern matches.  This is also what a `<Switch>`
renders: its first matching child `<Route>`. -/
def resolveFirst {H : Type} : List (Route H) → String → Option (MatchResult H)
  | [], _ => none
  | r :: rs, path =>
    match matchRoute r path with
    | some m => some m
    | none => resolveFirst rs path

/-- Modelled from the spec: sibling `<Route>` elements outside a `<Switch>`.
Each is resolved on its own, so every one of them whose pattern matches
renders, in document order (section 4.2, routes tried in registration
order). -/
def renderRoutes {H : Type} (routes : List (Route H)) (path : String) :
    List (MatchResult H) :=
  routes.filterMap (fun r => matchRoute r path)

/-! ## `1-url-params/App.js` -/

namespace UrlParams

/-- The two components mounted by the routes of the example. -/
inductive Page where
  | Student
  | Invoice
  deriving DecidableEq, Repr

/-- `Student`: reads `name` from `useParams()` and shows `Student: {name}`. -/
def Student (params : List (String × String)) : String :=
  "Student: " ++ (lookupParam "name" params).getD ""

/-- `Invoice`: reads `id` from `useParams()` and shows `Invoice #{id}`. -/
def Invoice (params : List (String × String)) : String :=
  "Invoice #" ++ (lookupParam "id" params).getD ""

/-- The routes of `App`, in their declared order: `exact path='/:name'`, then
`path='/invoices/:id'`. -/
def routes : List (Route Page) :=
  [⟨"/:name", Page.Student, true⟩, ⟨"/invoices/:id", Page.Invoice, false⟩]

/-- Renders the body of a matched route. -/
def renderPage (m : MatchResult Page) : String :=
  match m.handlerKey with
  | Page.Student => Student m.params
  | Page.Invoice => Invoice m.params

/-- What `App` shows below the rule for a given pathname: the two routes are
siblings without a `<Switch>`. -/
def App (pathname : String) : List String :=
  (renderRoutes routes pathname).map renderPage

end UrlParams

/-! ## `06-404-handling/App.js` -/

namespace NotFound

/-- The three pages of the example. -/
inductive Page where
  | Home
  | Settings
  | FourZeroFour
  deriving DecidableEq, Repr

/-- The children of the `<Switch>`: exact `/`, exact `/settings`, then `*`. -/
def routes : List (Route Page) :=
  [⟨"/", Page.Home, true⟩, ⟨"/settings", Page.Settings, true⟩,
   ⟨"*", Page.FourZeroFour, false⟩]

/-- The page the `<Switch>` of `App` renders for a pathname, if any. -/
def App (pathname : String) : Option Page :=
  (resolveFirst routes pathname).map (fun m => m.handlerKey)

end NotFound

/-! ## `09-sidebars-breadcrumbs/App.js` -/

namespace Sidebar

/-- An entry of the `routes` table; `exact` is `false` where the entry leaves
it out. -/
structure RouteEntry where
  path : String
  exact : Bool
  emojis : String
  main : String
  deriving DecidableEq, Repr

/-- The `routes` table. -/
def routes : List RouteEntry :=
  [⟨"/", true, "🏠🏠🏠🏠🏠", "Home"⟩,
   ⟨"/rainbows", false, "🌈🌈🌈🌈🌈", "Rainbows"⟩,
   ⟨"/bears", false, "🐻🐻🐻🐻🐻", "Bears"⟩]

/-- Whether the `<Route>` built from an entry renders at a pathname. -/
def entryRenders (r : RouteEntry) (pathname : String) : Bool :=
  (matchPath r.path pathname r.exact).isSome

/-- What `App` renders: the emojis of the matching entries in the sidebar and
the headings of the matching entries in the main area. -/
structure View where
  sidebar : List String
  main : List String
  deriving DecidableEq, Repr

/-- The `App` component: both areas map the whole table to `<Route>`s. -/
def App (pathname : String) : View :=
  ⟨(routes.filter (fun r => entryRenders r pathname)).map (fun r => r.emojis),
   (routes.filter (fun r => entryRenders r pathname)).map (fun r => r.main)⟩

end Sidebar

/-! ## `15-route-config/App.js` -/

namespace RouteConfig

/-- The components named by the route table. -/
inductive Component where
  | Home
  | Newsletters
  | Publication
  deriving DecidableEq, Repr

/-- An entry of the route table, with its nested `routes`. -/
inductive Config where
  | mk (path : String) (component : Component) (exact : Bool) (routes : List Config)

/-- What a rendered component shows. -/
inductive Rendered where
  | home
  | newsletters
  | publication (id : Option String)
  deriving DecidableEq, Repr

mutual
/-- `RouteWithSubRoutes`: a `<Route>` for the entry that, when it matches,
renders the entry's component with the entry's nested routes.  `Newsletters`
renders its heading and maps its `routes` prop to `RouteWithSubRoutes`;
`Home` and `Publication` ignore the prop; `Publication` reads `id` from
`useParams()`.  The result lists what is rendered in document order. -/
def RouteWithSubRoutes : Config → String → List Rendered
  | Config.mk path component exact subRoutes, pathname =>
    match matchPath path pathname exact with
    | none => []
    | some m =>
      match component with
      | Component.Home => [Rendered.home]
      | Component.Newsletters => Rendered.newsletters :: mapRoutes subRoutes pathname
      | Component.Publication => [Rendered.publication (lookupParam "id" m.params)]
/-- `routes.map(route => <RouteWithSubRoutes {...route} />)`. -/
def mapRoutes : List Config → String → List Rendered
  | [], _ => []
  | r :: rs, pathname => RouteWithSubRoutes r pathname ++ mapRoutes rs pathname
end

/-- The `routes` table. -/
def routes : List Config :=
  [Config.mk "/" Component.Home true [],
   Config.mk "/newsletters" Component.Newsletters false
     [Config.mk "/newsletters/:id" Component.Publication false []]]

/-- The `App` component below its link list. -/
def App (pathname : String) : List Rendered :=
  mapRoutes routes pathname

end RouteConfig

/-! ## `10-customized-links/App.js` -/

namespace CustomLinks

/-- The rendered `EmojiLink`: the class of the wrapping `div`, the emoji span
when present, and the link target. -/
structure LinkView where
  className : String
  emoji : Option String
  «to» : String
  deriving DecidableEq, Repr

/-- `EmojiLink`: `useRouteMatch` with the link's `exact` and `path: to`
decides the class name and whether the emoji is shown. -/
def EmojiLink («to» : String) (exact : Bool) (emoji : String) (pathname : String) :
    LinkView :=
  let «match» := matchPath «to» pathname exact
  ⟨if «match».isSome then "active" else "",
   if «match».isSome then some emoji else none,
   «to»⟩

/-- The pages of the example. -/
inductive Page where
  | Home
  | Notifications
  | Settings
  deriving DecidableEq, Repr

/-- The three `<Route>`s of `App`. -/
def routes : List (Route Page) :=
  [⟨"/", Page.Home, true⟩, ⟨"/notifications", Page.Notifications, false⟩,
   ⟨"/settings", Page.Settings, false⟩]

/-- What `App` renders: the three links and the pages of the matching
routes. -/
structure View where
  links : List LinkView
  pages : List Page
  deriving DecidableEq, Repr

/-- The `App` component. -/
def App (pathname : String) : View :=
  ⟨[EmojiLink "/" true "🏠" pathname,
    EmojiLink "/notifications" false "🔔" pathname,
    EmojiLink "/settings" false "⚙️" pathname],
   (renderRoutes routes pathname).map (fun m => m.handlerKey)⟩

end CustomLinks

/-! ## NavigationController (specification section 4.3) -/

/-- Modelled from the spec: the navigation state (section 3, `Location`),
with the field names the examples read through `useLocation()`: the path,
the raw query portion and the payload attached at navigation time. -/
structure Location (σ : Type) where
  pathname : String
  search : String
  state : Option σ
  deriving DecidableEq, Repr

/-- Modelled from the spec: a navigation target split into its path and its
query portion (section 6; the query is the part from the first `?`, up to a
`#` if there is one, and a lone `?` is no query). -/
def parsePath (target : String) : String × String :=
  let noHash := target.data.takeWhile (fun c => c ≠ '#')
  let search := noHash.dropWhile (fun c => c ≠ '?')
  (String.mk (noHash.takeWhile (fun c => c ≠ '?')),
   if search = ['?'] then "" else String.mk search)

/-- Modelled from the spec: the location a navigation request proposes.  Its
path is the normalised input path and its state is the passed state
(section 8, round trip of `push`). -/
def createLocation {σ : Type} (target : String) (state : Option σ) : Location σ :=
  ⟨normalizePath (parsePath target).1, (parsePath target).2, state⟩

/-- Modelled from the spec: the answer of a navigation guard (section 4.3). -/
inductive Verdict where
  | allow
  | block
  deriving DecidableEq, Repr

/-- Modelled from the spec: a navigation guard, a predicate on the current and
the proposed location (section 3, `NavigationGuard`). -/
abbrev NavigationGuard (σ : Type) := Location σ → Location σ → Verdict

/-- Modelled from the spec: the state owned by the navigation controller
(section 4.3), that is the current location and the locations committed
before it, most recent first. -/
structure NavigationController (σ : Type) where
  current : Location σ
  past : List (Location σ)
  deriving DecidableEq, Repr

/-- Modelled from the spec: whether a request is committed.  Every registered
guard is evaluated; if any of them blocks, the confirmation side-channel
decides, otherwise the request goes through. -/
def mayCommit {σ : Type} (guards : List (NavigationGuard σ))
    (confirm : Location σ → Bool) (current proposed : Location σ) : Bool :=
  if guards.any (fun g => g current proposed = Verdict.block) then confirm proposed
  else true

/-- Modelled from the spec: `push(path, state?)`.  A committed request makes
the proposed location current and keeps the previous one in the history; an
aborted request changes nothing. -/
def push {σ : Type} (guards : List (NavigationGuard σ)) (confirm : Location σ → Bool)
    (nav : NavigationController σ) (target : String) (state : Option σ) :
    NavigationController σ :=
  if mayCommit guards confirm nav.current (createLocation target state) then
    ⟨createLocation target state, nav.current :: nav.past⟩
  else nav

/-- Modelled from the spec: `replace`, given the proposed location itself (a
`<Redirect>` passes either a path or a location object).  A committed request
overwrites the current location without growing the history. -/
def replace {σ : Type} (guards : List (NavigationGuard σ)) (confirm : Location σ → Bool)
    (nav : NavigationController σ) (proposed : Location σ) : NavigationController σ :=
  if mayCommit guards confirm nav.current proposed then ⟨proposed, nav.past⟩
  else nav

/-! ## `14-preventing-transition/App.js` -/

namespace PreventingTransition

/-- The two `useState` cells of `Survey`. -/
structure SurveyState where
  isBlocking : Bool
  food : String
  deriving DecidableEq, Repr

/-- The initial state: `useState(false)` and `useState('')`. -/
def initial : SurveyState := ⟨false, ""⟩

/-- `handleSubmit`: resets the form element and clears `isBlocking`; the
`food` cell is not written. -/
def handleSubmit (s : SurveyState) : SurveyState :=
  { s with isBlocking := false }

/-- `handleChange`: `isBlocking` becomes `food.length > 0` and `food` the
entered value. -/
def handleChange (value : String) (_s : SurveyState) : SurveyState :=
  ⟨decide (value.length > 0), value⟩

/-- What `Survey` returns: the thank-you heading, or the form with its
`<Prompt when=...>` and the controlled input. -/
inductive SurveyView where
  | thankYou
  | form (promptWhen : Bool) (value : String)
  deriving DecidableEq, Repr

/-- The render function of `Survey`: `if (food && !isBlocking)` shows the
thank-you heading, otherwise the form. -/
def Survey (s : SurveyState) : SurveyView :=
  if s.food ≠ "" ∧ s.isBlocking = false then SurveyView.thankYou
  else SurveyView.form s.isBlocking s.food

/-- The guards a rendered `Survey` has registered: a `<Prompt>` whose `when`
is true blocks every transition (its message is always a string), a
`<Prompt>` whose `when` is false registers nothing. -/
def guards {σ : Type} : SurveyView → List (NavigationGuard σ)
  | SurveyView.form true _ => [fun _ _ => Verdict.block]
  | _ => []

/-- The events of the form. -/
inductive Event where
  | change (value : String)
  | submit
  deriving DecidableEq, Repr

/-- One event applied to the state. -/
def step (s : SurveyState) : Event → SurveyState
  | Event.change value => handleChange value s
  | Event.submit => handleSubmit s

/-- A sequence of events applied in order. -/
def run (s : SurveyState) (events : List Event) : SurveyState :=
  events.foldl step s

end PreventingTransition

/-! ## `13-protected-routes/App.js` -/

namespace ProtectedRoutes

/-- The payload the example attaches to a location: `{ from: location }`. -/
inductive FromState where
  | «from» (location : Location FromState)

/-- The elements the routes of the example can produce. -/
inductive Element where
  | home
  | loginForm
  | notifications
  | redirect (target : Location FromState)

/-- `Login`: once `redirectToReferrer` is true it renders
`<Redirect to={state?.from || '/'} />`, before that the log-in form. -/
def Login (redirectToReferrer : Bool) (location : Location FromState) : Element :=
  if redirectToReferrer = true then
    Element.redirect
      (match location.state with
       | some (FromState.from referrer) => referrer
       | none => createLocation "/" none)
  else Element.loginForm

/-- `PrivateRoute`: a `<Route>` whose `render` gives the children when
`fakeAuth.isAuthenticated === true` and otherwise a `<Redirect>` to
`/login` with `state: { from: location }`.  The result is `none` when the
route does not match the location. -/
def PrivateRoute (path : String) (children : Element) (isAuthenticated : Bool)
    (location : Location FromState) : Option Element :=
  (matchPath path location.pathname false).map
    (fun _ =>
      if isAuthenticated = true then children
      else Element.redirect ⟨"/login", "", some (FromState.from location)⟩)

/-- The state of the running example: the module-level flag of `fakeAuth`,
the navigation state, the `useState` cell of the mounted `Login`, and
whether the callback passed to `authenticate` is still waiting for its
timer. -/
structure AppState where
  isAuthenticated : Bool
  nav : NavigationController FromState
  redirectToReferrer : Bool
  pendingLogin : Bool

/-- The example starts signed out at the root path. -/
def initial : AppState :=
  ⟨false, ⟨createLocation "/" none, []⟩, false, false⟩

/-- The three routes of `App`, in document order: exact `/`, `/login`, and
the private `/notifications`. -/
def App (s : AppState) : List Element :=
  ((matchPath "/" s.nav.current.pathname true).map (fun _ => Element.home)).toList
  ++ ((matchPath "/login" s.nav.current.pathname false).map
        (fun _ => Login s.redirectToReferrer s.nav.current)).toList
  ++ (PrivateRoute "/notifications" Element.notifications s.isAuthenticated
        s.nav.current).toList

/-- The first `<Redirect>` among rendered elements, if any. -/
def firstRedirect : List Element → Option (Location FromState)
  | [] => none
  | Element.redirect target :: _ => some target
  | _ :: rest => firstRedirect rest

/-- The `useState` cell of `Login` lives only while `Login` is mounted: a
location that no longer matches `/login` drops it, and the next mount starts
from `false`. -/
def remount (s : AppState) : AppState :=
  if (matchPath "/login" s.nav.current.pathname false).isSome then s
  else { s with redirectToReferrer := false }

/-- Mounted `<Redirect>`s replace the current location until the render
holds none; `fuel` bounds the number of replacements. -/
def settle : Nat → AppState → AppState
  | 0, s => s
  | fuel + 1, s =>
    match firstRedirect (App s) with
    | none => s
    | some target =>
      settle fuel (remount { s with nav := replace [] (fun _ => true) s.nav target })

/-- Whether an element is the log-in form with its button. -/
def isLoginForm : Element → Bool
  | Element.loginForm => true
  | _ => false

/-- What can happen to the running example. -/
inductive Event where
  | navigate (target : String)
  | clickLogin
  | timerFired

/-- One event.  A link click pushes its target.  The log-in button calls
`fakeAuth.authenticate`, which sets the flag at once and leaves its callback
to a timer; when the timer fires the callback sets `redirectToReferrer` of
the mounted `Login`. -/
def step (fuel : Nat) (s : AppState) : Event → AppState
  | Event.navigate target =>
    settle fuel (remount { s with nav := push [] (fun _ => true) s.nav target none })
  | Event.clickLogin =>
    if (App s).any isLoginForm then
      { s with isAuthenticated := true, pendingLogin := true }
    else s
  | Event.timerFired =>
    if s.pendingLogin = true then
      settle fuel (remount { s with redirectToReferrer := true, pendingLogin := false })
    else s

end ProtectedRoutes

/-! ## `5-querystring/App.js` -/

namespace QueryString

/-- Splits a character sequence at every occurrence of a separator. -/
def splitChars (sep : Char) : List Char → List (List Char)
  | [] => [[]]
  | c :: cs =>
    if c = sep then [] :: splitChars sep cs
    else
      match splitChars sep cs with
      | [] => [[c]]
      | s :: ss => (c :: s) :: ss

/-- A parsed query value: a string, or the ordered sequence of the values of
a repeated key. -/
inductive QueryValue where
  | single (value : String)
  | many (values : List String)
  deriving DecidableEq, Repr

/-- A parsed query: keys with their values, in order of first appearance. -/
abbrev Query := List (String × QueryValue)

/-- Value of a key of a parsed query, `none` when the key is absent. -/
def Query.get (key : String) : Query → Option QueryValue
  | [] => none
  | (k, v) :: rest => if k = key then some v else Query.get key rest

/-- Adds one occurrence of a key: a repeated key collects its values into a
sequence. -/
def Query.add (key value : String) : Query → Query
  | [] => [(key, QueryValue.single value)]
  | (k, v) :: rest =>
    if k = key then
      (k, match v with
          | QueryValue.single old => QueryValue.many [old, value]
          | QueryValue.many olds => QueryValue.many (olds ++ [value])) :: rest
    else (k, v) :: Query.add key value rest

/-- The `key=value` pieces of a query portion, before decoding: the leading
`?` is dropped, the rest is split at `&`, empty pieces are skipped, and each
piece is split at its first `=` (a piece without `=` has the empty value). -/
def rawPairs (search : String) : List (String × String) :=
  let body := match search.data with
    | [] => []
    | c :: rest => if c = '?' then rest else c :: rest
  ((splitChars '&' body).filter (fun piece => piece ≠ [])).map
    (fun piece =>
      (String.mk (piece.takeWhile (fun c => c ≠ '=')),
       String.mk ((piece.dropWhile (fun c => c ≠ '=')).drop 1)))

/-- Modelled from the spec: `parse`, the query portion parsed with
percent-decoding, repeated keys collected into an ordered sequence of values
(section 6).  The percent-decoder is a parameter. -/
def parse (decode : String → String) (search : String) : Query :=
  (rawPairs search).foldl (fun q kv => Query.add (decode kv.1) (decode kv.2) q) []

/-- An entry of the `users` table. -/
structure UserEntry where
  name : String
  handle : String
  avatar : String
  deriving DecidableEq, Repr

/-- The `users` table, keyed by handle. -/
def users : List (String × UserEntry) :=
  [("tylermcginnis",
     ⟨"Tyler McGinnis", "tylermcginnis",
      "https://res.cloudinary.com/uidotdev/image/twitter_name/tylermcginnis"⟩),
   ("sarah_edo",
     ⟨"Sarah Drasner", "sarah_edo",
      "https://res.cloudinary.com/uidotdev/image/twitter_name/sarah_edo"⟩),
   ("dan_abramov",
     ⟨"Dan Abramov", "dan_abramov",
      "https://res.cloudinary.com/uidotdev/image/twitter_name/dan_abramov"⟩)]

/-- The expression `users[id]` on the table's own keys: `none` stands for
`undefined`.  Property names inherited from the object prototype are not
part of the table and are not modelled. -/
def lookupUser (id : String) : List (String × UserEntry) → Option UserEntry
  | [] => none
  | (k, v) :: rest => if k = id then some v else lookupUser id rest

/-- What `User` returns. -/
inductive UserView where
  | selectUser
  | user (alt : String) (src : String) (href : String) (text : String)
  deriving DecidableEq, Repr

/-- The card `User` renders from an entry. -/
def userCard (u : UserEntry) : UserView :=
  UserView.user ("Avatar for " ++ u.name) u.avatar ("https://twitter.com/" ++ u.handle)
    u.name

/-- The key `users[id]` is indexed with: a sequence of values is joined with
commas when it is used as a property key. -/
def propertyKey : QueryValue → String
  | QueryValue.single v => v
  | QueryValue.many vs => String.intercalate "," vs

/-- The `User` component, given the library's `parse` and the `search` of
the current location.  A missing or empty `id` gives the placeholder;
otherwise `users[id]` is destructured, which fails (`none`) when the entry is
`undefined`. -/
def User (parse : String → Query) (search : String) : Option UserView :=
  match Query.get "id" (parse search) with
  | none => some UserView.selectUser
  | some id =>
    if id = QueryValue.single "" then some UserView.selectUser
    else (lookupUser (propertyKey id) users).map userCard

/-- The targets of the three links of `App`. -/
def links : List String :=
  ["/?id=tylermcginnis", "/?id=sarah_edo", "/?id=dan_abramov"]

/-- The `App` component below the rule: a single non-exact route `/` around
`User`; `none` when the route does not match, otherwise what `User` gives. -/
def App (parse : String → Query) (location : Location Unit) : Option (Option UserView) :=
  (matchPath "/" location.pathname false).map (fun _ => User parse location.search)

end QueryString

/-! ## Lemmas on splitting and normalisation -/

theorem splitOnSlash_ne_nil (l : List Char) : splitOnSlash l ≠ [] := by
  cases l with
  | nil => simp [splitOnSlash]
  | cons c cs =>
    unfold splitOnSlash
    split
    · simp
    · split <;> simp

theorem splitOnSlash_of_not_mem (l : List Char) (h : '/' ∉ l) : splitOnSlash l = [l] := by
  induction l with
  | nil => rfl
  | cons c cs ih =>
    have hc : c ≠ '/' := fun e => h (by simp [e])
    have hcs : '/' ∉ cs := fun e => h (by simp [e])
    simp [splitOnSlash, hc, ih hcs]

theorem splitOnSlash_append (a r : List Char) (h : '/' ∉ a) :
    splitOnSlash (a ++ '/' :: r) = a :: splitOnSlash r := by
  induction a with
  | nil => simp [splitOnSlash]
  | cons c cs ih =>
    have hc : c ≠ '/' := fun e => h (by simp [e])
    have hcs : '/' ∉ cs := fun e => h (by simp [e])
    simp [splitOnSlash, hc, ih hcs]

theorem getLast?_ne_of_not_mem (l : List Char) (h : '/' ∉ l) : l.getLast? ≠ some '/' := by
  intro e
  exact h (List.mem_of_getLast?_eq_some e)

theorem normalizeChars_slash_cons (l : List Char) (hl : l ≠ []) :
    normalizeChars ('/' :: l) = '/' :: (if l.getLast? = some '/' then l.dropLast else l) := by
  cases l with
  | nil => exact absurd rfl hl
  | cons c cs =>
    simp only [normalizeChars, List.getLast?_cons_cons, List.dropLast_cons₂]
    simp only [List.cons.injEq, true_and, reduceCtorEq, if_false]
    split <;> rfl

theorem pathSegments_nil_iff (p : String) : pathSegments p = [] ↔ normalizePath p = "/" := by
  unfold pathSegments normalizePath
  cases h : normalizeChars p.data with
  | nil => simp
  | cons c rest =>
    by_cases hc : c = '/'
    · subst hc
      by_cases hr : rest = []
      · subst hr; simp
      · simp only [if_true, hr, if_false]
        constructor
        · intro e
          exact absurd (List.map_eq_nil_iff.mp e) (splitOnSlash_ne_nil rest)
        · intro e
          have e2 := congrArg String.data e
          simp at e2
          exact absurd (e2 ▸ rfl : rest = []) hr
    · simp only [hc, if_false]
      constructor
      · intro e
        exact absurd (List.map_eq_nil_iff.mp e) (splitOnSlash_ne_nil _)
      · intro e
        have e2 := congrArg String.data e
        simp at e2
        exact absurd e2.1 hc

theorem data_slash_append (s : String) : ("/" ++ s).data = '/' :: s.data := by
  simp [String.data_append]

theorem pathSegments_of_data (p : String) (l : List Char) (h : p.data = '/' :: l)
    (hl : l ≠ []) (hlast : l.getLast? ≠ some '/') :
    pathSegments p = (splitOnSlash l).map String.mk := by
  unfold pathSegments
  rw [h, normalizeChars_slash_cons l hl]
  simp [hlast, hl]

theorem pathSegments_one (s : String) (hs : s ≠ "") (hslash : '/' ∉ s.data) :
    pathSegments ("/" ++ s) = [s] := by
  have hne : s.data ≠ [] := fun e => hs (String.ext e)
  rw [pathSegments_of_data _ s.data (data_slash_append s) hne
    (getLast?_ne_of_not_mem _ hslash), splitOnSlash_of_not_mem _ hslash]
  rfl

theorem pathSegments_two (p a s : String) (hp : p.data = '/' :: (a.data ++ '/' :: s.data))
    (ha : '/' ∉ a.data) (hs : s ≠ "") (hslash : '/' ∉ s.data) :
    pathSegments p = [a, s] := by
  have hne : s.data ≠ [] := fun e => hs (String.ext e)
  have hlast : (a.data ++ '/' :: s.data).getLast? ≠ some '/' := by
    rw [List.getLast?_append_of_ne_nil _ (by simp)]
    cases hd : s.data with
    | nil => exact absurd hd hne
    | cons c cs =>
      rw [List.getLast?_cons_cons, ← hd]
      exact getLast?_ne_of_not_mem _ hslash
  rw [pathSegments_of_data _ _ hp (by simp) hlast, splitOnSlash_append _ _ ha,
    splitOnSlash_of_not_mem _ hslash]
  rfl

theorem pathSegments_head (p a : String) (r : List Char)
    (hp : p.data = '/' :: (a.data ++ '/' :: r)) (ha : '/' ∉ a.data) (hne : a.data ≠ []) :
    ∃ t, pathSegments p = a :: t := by
  unfold pathSegments
  rw [hp, normalizeChars_slash_cons _ (by simp)]
  by_cases hlast : (a.data ++ '/' :: r).getLast? = some '/'
  · rw [if_pos hlast, List.dropLast_append_of_ne_nil _ (by simp)]
    cases r with
    | nil =>
      refine ⟨[], ?_⟩
      simp [hne, splitOnSlash_of_not_mem _ ha]
    | cons c cs =>
      refine ⟨(splitOnSlash (c :: cs).dropLast).map String.mk, ?_⟩
      simp [splitOnSlash_append _ _ ha]
  · refine ⟨(splitOnSlash r).map String.mk, ?_⟩
    rw [if_neg hlast]
    simp [splitOnSlash_append _ _ ha]

theorem matchPath_root_exact (p : String) :
    (matchPath "/" p true).isSome = true ↔ normalizePath p = "/" := by
  have hc : compile "/" = Except.ok [] := rfl
  rw [← pathSegments_nil_iff]
  cases h : pathSegments p <;> simp [matchPath, hc, matchSegments, h]

theorem matchPath_exact_consumes (pattern p : String) (m : PathMatch)
    (h : matchPath pattern p true = some m) : m.remainingPath = "" := by
  unfold matchPath at h
  cases hc : compile pattern with
  | error e => simp [hc] at h
  | ok pat =>
    cases hm : matchSegments pat (pathSegments p) with
    | none => simp [hc, hm] at h
    | some sm =>
      by_cases hr : sm.remaining = []
      · simp [hc, hm, hr] at h
        rw [← h]
      · simp [hc, hm, hr] at h

/-! ## The claims -/

/-- C1 (as the code has it): in the url-params example the routes are, in
declared order, `/:name` with `exact` and then `/invoices/:id`.  Resolving
`/invoices/42` does not match the first pattern, because an exact route needs
the whole path consumed; the first match is the second pattern, with
`id = "42"`, and `App` shows the invoice only.  Only in prefix mode does
`/:name` match that path, with `name = "invoices"`. -/
theorem c1_invoices_resolves_to_second_route :
    resolveFirst UrlParams.routes "/invoices/42"
        = some ⟨UrlParams.Page.Invoice, [("id", "42")], "/invoices/42", ""⟩
      ∧ matchPath "/:name" "/invoices/42" true = none
      ∧ UrlParams.App "/invoices/42" = ["Invoice #42"]
      ∧ matchPath "/:name" "/invoices/42" false
          = some ⟨[("name", "invoices")], "/invoices", "/42"⟩ := by
  decide

/-- C1 (as stated, refuted): resolving `/invoices/42` against the routes of
the url-params example does not yield the first pattern with
`name = "invoices"`. -/
theorem c1_first_pattern_does_not_match :
    ¬ ((resolveFirst UrlParams.routes "/invoices/42").map
          (fun m => (m.handlerKey, m.params))
        = some (UrlParams.Page.Student, [("name", "invoices")])) := by
  decide

theorem matchPath_star (p : String) : ∃ m, matchPath "*" p false = some m := by
  have hc : compile "*" = Except.ok [SegmentSpec.wildcard] := rfl
  simp [matchPath, hc, matchSegments]

/-- C2: in the 404 example the `<Switch>` selects exactly one page for every
path: Home when `/` matches exactly, otherwise Settings when `/settings`
matches exactly, otherwise the catch-all FourZeroFour.  In particular
`/settings` selects Settings and `/unknown` selects FourZeroFour. -/
theorem c2_switch_selects_exactly_one (p : String) :
    (∃ page, NotFound.App p = some page)
      ∧ NotFound.App p = some
          (if (matchPath "/" p true).isSome then NotFound.Page.Home
           else if (matchPath "/settings" p true).isSome then NotFound.Page.Settings
           else NotFound.Page.FourZeroFour)
      ∧ NotFound.App "/settings" = some NotFound.Page.Settings
      ∧ NotFound.App "/unknown" = some NotFound.Page.FourZeroFour := by
  have key : NotFound.App p = some
      (if (matchPath "/" p true).isSome then NotFound.Page.Home
       else if (matchPath "/settings" p true).isSome then NotFound.Page.Settings
       else NotFound.Page.FourZeroFour) := by
    obtain ⟨m, hm⟩ := matchPath_star p
    unfold NotFound.App NotFound.routes
    cases h1 : matchPath "/" p true with
    | some m1 => simp [resolveFirst, matchRoute, h1]
    | none =>
      cases h2 : matchPath "/settings" p true with
      | some m2 => simp [resolveFirst, matchRoute, h1, h2]
      | none => simp [resolveFirst, matchRoute, h1, h2, hm]
  exact ⟨⟨_, key⟩, key, by decide, by decide⟩

/-- C3: for every non-empty slash-free segment `s`, the exact route `/:name`
matches `/s` with `name = s` and `App` shows `Student: s`; the route
`/invoices/:id` matches `/invoices/s` with `id = s` and `App` shows
`Invoice #s`. -/
theorem c3_params_equal_segments (s : String) (hs : s ≠ "") (hslash : '/' ∉ s.data) :
    (matchPath "/:name" ("/" ++ s) true).map (fun m => m.params) = some [("name", s)]
      ∧ UrlParams.App ("/" ++ s) = ["Student: " ++ s]
      ∧ (matchPath "/invoices/:id" ("/invoices/" ++ s) false).map
          (fun m => m.params) = some [("id", s)]
      ∧ UrlParams.App ("/invoices/" ++ s) = ["Invoice #" ++ s] := by
  have c1 : compile "/:name" = Except.ok [SegmentSpec.param "name"] := rfl
  have c2 : compile "/invoices/:id"
      = Except.ok [SegmentSpec.literal "invoices", SegmentSpec.param "id"] := rfl
  have p1 := pathSegments_one s hs hslash
  have p2 : pathSegments ("/invoices/" ++ s) = ["invoices", s] :=
    pathSegments_two _ "invoices" s (by simp [String.data_append]) (by decide) hs hslash
  refine ⟨?_, ?_, ?_, ?_⟩
  · simp [matchPath, c1, p1, matchSegments, hs]
  · simp [UrlParams.App, UrlParams.routes, renderRoutes, matchRoute, matchPath, c1, c2, p1,
      matchSegments, hs, UrlParams.renderPage, UrlParams.Student, lookupParam]
  · simp [matchPath, c2, p2, matchSegments, hs]
  · simp [UrlParams.App, UrlParams.routes, renderRoutes, matchRoute, matchPath, c1, c2, p2,
      matchSegments, hs, UrlParams.renderPage, UrlParams.Invoice, lookupParam]

theorem c3_params_equal_segments_witness :
    "tyler" ≠ "" ∧ '/' ∉ "tyler".data
      ∧ UrlParams.App ("/" ++ "tyler") = ["Student: " ++ "tyler"]
      ∧ UrlParams.App ("/invoices/" ++ "tyler") = ["Invoice #" ++ "tyler"] :=
  ⟨by decide, by decide,
   (c3_params_equal_segments "tyler" (by decide) (by decide)).2.1,
   (c3_params_equal_segments "tyler" (by decide) (by decide)).2.2.2⟩

theorem rainbows_extended (p : String) (r : List Char)
    (hp : p.data = '/' :: ("rainbows".data ++ '/' :: r)) :
    (matchPath "/rainbows" p false).isSome = true := by
  have hc : compile "/rainbows" = Except.ok [SegmentSpec.literal "rainbows"] := rfl
  obtain ⟨t, ht⟩ := pathSegments_head p "rainbows" r hp (by decide) (by decide)
  simp [matchPath, hc, ht, matchSegments]

theorem bears_extended (p : String) (r : List Char)
    (hp : p.data = '/' :: ("bears".data ++ '/' :: r)) :
    (matchPath "/bears" p false).isSome = true := by
  have hc : compile "/bears" = Except.ok [SegmentSpec.literal "bears"] := rfl
  obtain ⟨t, ht⟩ := pathSegments_head p "bears" r hp (by decide) (by decide)
  simp [matchPath, hc, ht, matchSegments]

/-- C4: an exact route matches only when the whole path is consumed (its
match leaves no remainder).  In the sidebar example the exact `/` entry is
rendered, in the sidebar and in the main area, if and only if the path is the
root (after trailing-slash normalisation); the non-exact `/rainbows` and
`/bears` entries are rendered for their own path and for every path that
extends it by further segments. -/
theorem c4_sidebar_exact_and_extension (p rest : String) :
    (∀ pattern m, matchPath pattern p true = some m → m.remainingPath = "")
      ∧ ("Home" ∈ (Sidebar.App p).main ↔ normalizePath p = "/")
      ∧ ("🏠🏠🏠🏠🏠" ∈ (Sidebar.App p).sidebar ↔ normalizePath p = "/")
      ∧ "Rainbows" ∈ (Sidebar.App "/rainbows").main
      ∧ "Rainbows" ∈ (Sidebar.App ("/rainbows/" ++ rest)).main
      ∧ "🌈🌈🌈🌈🌈" ∈ (Sidebar.App ("/rainbows/" ++ rest)).sidebar
      ∧ "Bears" ∈ (Sidebar.App "/bears").main
      ∧ "Bears" ∈ (Sidebar.App ("/bears/" ++ rest)).main
      ∧ "🐻🐻🐻🐻🐻" ∈ (Sidebar.App ("/bears/" ++ rest)).sidebar := by
  have hr := rainbows_extended ("/rainbows/" ++ rest) rest.data (by simp [String.data_append])
  have hb := bears_extended ("/bears/" ++ rest) rest.data (by simp [String.data_append])
  have hroot := matchPath_root_exact p
  refine ⟨fun pattern m h => matchPath_exact_consumes pattern p m h, ?_, ?_, by decide, ?_, ?_,
    by decide, ?_, ?_⟩
  · simp only [Sidebar.App, Sidebar.routes, Sidebar.entryRenders, List.mem_map,
      List.mem_filter, List.mem_cons, List.mem_singleton, List.not_mem_nil, or_false, ← hroot]
    constructor
    · rintro ⟨a, ⟨h | h | h, hm⟩, he⟩
      · subst h; exact hm
      · subst h; exact absurd he (by decide)
      · subst h; exact absurd he (by decide)
    · intro h
      exact ⟨_, ⟨Or.inl rfl, h⟩, rfl⟩
  · simp only [Sidebar.App, Sidebar.routes, Sidebar.entryRenders, List.mem_map,
      List.mem_filter, List.mem_cons, List.mem_singleton, List.not_mem_nil, or_false, ← hroot]
    constructor
    · rintro ⟨a, ⟨h | h | h, hm⟩, he⟩
      · subst h; exact hm
      · subst h; exact absurd he (by decide)
      · subst h; exact absurd he (by decide)
    · intro h
      exact ⟨_, ⟨Or.inl rfl, h⟩, rfl⟩
  · simp only [Sidebar.App, Sidebar.routes, Sidebar.entryRenders, List.mem_map,
      List.mem_filter, List.mem_cons, List.mem_singleton, List.not_mem_nil, or_false]
    exact ⟨_, ⟨Or.inr (Or.inl rfl), hr⟩, rfl⟩
  · simp only [Sidebar.App, Sidebar.routes, Sidebar.entryRenders, List.mem_map,
      List.mem_filter, List.mem_cons, List.mem_singleton, List.not_mem_nil, or_false]
    exact ⟨_, ⟨Or.inr (Or.inl rfl), hr⟩, rfl⟩
  · simp only [Sidebar.App, Sidebar.routes, Sidebar.entryRenders, List.mem_map,
      List.mem_filter, List.mem_cons, List.mem_singleton, List.not_mem_nil, or_false]
    exact ⟨_, ⟨Or.inr (Or.inr rfl), hb⟩, rfl⟩
  · simp only [Sidebar.App, Sidebar.routes, Sidebar.entryRenders, List.mem_map,
      List.mem_filter, List.mem_cons, List.mem_singleton, List.not_mem_nil, or_false]
    exact ⟨_, ⟨Or.inr (Or.inr rfl), hb⟩, rfl⟩

theorem c4_sidebar_exact_and_extension_witness :
    matchPath "/" "/" true = some ⟨[], "/", ""⟩
      ∧ (⟨[], "/", ""⟩ : PathMatch).remainingPath = ""
      ∧ "Rainbows" ∈ (Sidebar.App ("/rainbows/" ++ "double/triple")).main :=
  ⟨by decide,
   (c4_sidebar_exact_and_extension "/" "double/triple").1 "/" ⟨[], "/", ""⟩ (by decide),
   (c4_sidebar_exact_and_extension "/" "double/triple").2.2.2.2.1⟩

/-- C5: in the route-config example the child route `/newsletters/:id` is
tried only inside its parent: for every path, Publication is rendered only if
Newsletters is rendered.  For every non-empty slash-free segment `s` the
path `/newsletters/s` renders Newsletters and, inside it, Publication with
`id = s`, and does not render Home. -/
theorem c5_child_route_inside_parent (p s : String) (hs : s ≠ "")
    (hslash : '/' ∉ s.data) :
    ((∃ id, RouteConfig.Rendered.publication id ∈ RouteConfig.App p) →
        RouteConfig.Rendered.newsletters ∈ RouteConfig.App p)
      ∧ RouteConfig.App ("/newsletters/" ++ s)
          = [RouteConfig.Rendered.newsletters, RouteConfig.Rendered.publication (some s)]
      ∧ RouteConfig.Rendered.home ∉ RouteConfig.App ("/newsletters/" ++ s) := by
  have c0 : compile "/" = Except.ok [] := rfl
  have c1 : compile "/newsletters" = Except.ok [SegmentSpec.literal "newsletters"] := rfl
  have c2 : compile "/newsletters/:id"
      = Except.ok [SegmentSpec.literal "newsletters", SegmentSpec.param "id"] := rfl
  have p2 : pathSegments ("/newsletters/" ++ s) = ["newsletters", s] :=
    pathSegments_two _ "newsletters" s (by simp [String.data_append]) (by decide) hs hslash
  have happ : RouteConfig.App ("/newsletters/" ++ s)
      = [RouteConfig.Rendered.newsletters, RouteConfig.Rendered.publication (some s)] := by
    simp [RouteConfig.App, RouteConfig.routes, RouteConfig.mapRoutes,
      RouteConfig.RouteWithSubRoutes, matchPath, c0, c1, c2, p2, matchSegments, hs,
      lookupParam]
  refine ⟨?_, happ, ?_⟩
  · rintro ⟨id, hid⟩
    simp only [RouteConfig.App, RouteConfig.routes, RouteConfig.mapRoutes,
      RouteConfig.RouteWithSubRoutes] at hid ⊢
    cases h0 : matchPath "/" p true <;> cases h1 : matchPath "/newsletters" p false <;>
      simp [h0, h1] at hid ⊢
  · rw [happ]
    simp

theorem c5_child_route_inside_parent_witness :
    "react" ≠ "" ∧ '/' ∉ "react".data
      ∧ RouteConfig.App ("/newsletters/" ++ "react")
          = [RouteConfig.Rendered.newsletters,
             RouteConfig.Rendered.publication (some "react")] :=
  ⟨by decide, by decide,
   (c5_child_route_inside_parent "/newsletters/react" "react" (by decide) (by decide)).2.1⟩

theorem customLinks_pages (p : String) :
    (CustomLinks.App p).pages
      = (if (matchPath "/" p true).isSome then [CustomLinks.Page.Home] else [])
        ++ (if (matchPath "/notifications" p false).isSome
              then [CustomLinks.Page.Notifications] else [])
        ++ (if (matchPath "/settings" p false).isSome
              then [CustomLinks.Page.Settings] else []) := by
  cases h0 : matchPath "/" p true <;> cases h1 : matchPath "/notifications" p false <;>
    cases h2 : matchPath "/settings" p false <;>
    simp [CustomLinks.App, CustomLinks.routes, renderRoutes, matchRoute, List.filterMap_cons,
      h0, h1, h2]

/-- C10: in the customized-links example, for every path, the three links
of `App` are the `EmojiLink`s for `/` (exact), `/notifications` and
`/settings`, and each of them is marked active (class `active`, its emoji
shown) if and only if the `<Route>` declared for the same destination
renders its page.  At the root path the Home link is active and the other
two are not, and on every path that is not the root (after trailing-slash
normalisation) the Home link is not active. -/
theorem c10_link_active_iff_route_renders (p : String) :
    (∃ home notifications settings,
        (CustomLinks.App p).links = [home, notifications, settings]
          ∧ home.«to» = "/" ∧ notifications.«to» = "/notifications"
          ∧ settings.«to» = "/settings"
          ∧ ((home.className = "active" ∧ home.emoji = some "🏠")
              ↔ CustomLinks.Page.Home ∈ (CustomLinks.App p).pages)
          ∧ ((notifications.className = "active" ∧ notifications.emoji = some "🔔")
              ↔ CustomLinks.Page.Notifications ∈ (CustomLinks.App p).pages)
          ∧ ((settings.className = "active" ∧ settings.emoji = some "⚙️")
              ↔ CustomLinks.Page.Settings ∈ (CustomLinks.App p).pages)
          ∧ ((home.className = "" ∧ home.emoji = none)
              ↔ CustomLinks.Page.Home ∉ (CustomLinks.App p).pages)
          ∧ ((notifications.className = "" ∧ notifications.emoji = none)
              ↔ CustomLinks.Page.Notifications ∉ (CustomLinks.App p).pages)
          ∧ ((settings.className = "" ∧ settings.emoji = none)
              ↔ CustomLinks.Page.Settings ∉ (CustomLinks.App p).pages))
      ∧ (CustomLinks.App "/").links
          = [⟨"active", some "🏠", "/"⟩, ⟨"", none, "/notifications"⟩,
             ⟨"", none, "/settings"⟩]
      ∧ (CustomLinks.App "/").pages = [CustomLinks.Page.Home]
      ∧ (normalizePath p ≠ "/" →
          (CustomLinks.App p).links.head? = some ⟨"", none, "/"⟩
            ∧ CustomLinks.Page.Home ∉ (CustomLinks.App p).pages) := by
  have hroot := matchPath_root_exact p
  have hpages := customLinks_pages p
  refine ⟨⟨_, _, _, rfl, rfl, rfl, rfl, ?_⟩, by decide, by decide, ?_⟩
  · rw [hpages]
    simp only [CustomLinks.EmojiLink]
    cases h0 : matchPath "/" p true <;> cases h1 : matchPath "/notifications" p false <;>
      cases h2 : matchPath "/settings" p false <;> simp
  · intro hne
    have hnone : matchPath "/" p true = none := by
      cases h : matchPath "/" p true with
      | none => rfl
      | some m => exact absurd (hroot.mp (by simp [h])) hne
    rw [hpages]
    simp only [CustomLinks.App, CustomLinks.EmojiLink, hnone]
    cases h1 : matchPath "/notifications" p false <;>
      cases h2 : matchPath "/settings" p false <;> simp

theorem c10_link_active_iff_route_renders_witness :
    normalizePath "/settings" ≠ "/"
      ∧ (CustomLinks.App "/settings").links.head? = some ⟨"", none, "/"⟩
      ∧ CustomLinks.Page.Home ∉ (CustomLinks.App "/settings").pages :=
  ⟨by decide, (c10_link_active_iff_route_renders "/settings").2.2.2 (by decide)⟩

/-- C6: while `Survey` is blocking (`isBlocking = true`) and the
confirmation is declined, a navigation request to any target leaves the
navigation state, and so the current location, unchanged; while it is not
blocking, the same request commits and the current location becomes the
requested one, whose path for the target `/other` is `/other`. -/
theorem c6_prompt_blocks_navigation {σ : Type} (s : PreventingTransition.SurveyState)
    (nav : NavigationController σ) (target : String) (state : Option σ)
    (confirm : Location σ → Bool) :
    (s.isBlocking = true → confirm (createLocation target state) = false →
        push (PreventingTransition.guards (PreventingTransition.Survey s)) confirm nav
            target state = nav
          ∧ (push (PreventingTransition.guards (PreventingTransition.Survey s)) confirm nav
              target state).current = nav.current)
      ∧ (s.isBlocking = false →
          (push (PreventingTransition.guards (PreventingTransition.Survey s)) confirm nav
              target state).current = createLocation target state)
      ∧ (createLocation "/other" state).pathname = "/other" := by
  refine ⟨?_, ?_, rfl⟩
  · intro hb hc
    have hv : PreventingTransition.Survey s = PreventingTransition.SurveyView.form true s.food := by
      simp [PreventingTransition.Survey, hb]
    have hpush : push (PreventingTransition.guards (PreventingTransition.Survey s)) confirm nav
        target state = nav := by
      simp [hv, PreventingTransition.guards, push, mayCommit, hc]
    exact ⟨hpush, by rw [hpush]⟩
  · intro hb
    have hg : (PreventingTransition.guards (PreventingTransition.Survey s) :
        List (NavigationGuard σ)) = [] := by
      unfold PreventingTransition.Survey
      split <;> simp [PreventingTransition.guards, hb]
    simp [hg, push, mayCommit]

theorem c6_prompt_blocks_navigation_witness :
    (push (PreventingTransition.guards (PreventingTransition.Survey ⟨true, "pizza"⟩))
        (fun _ => false) (⟨createLocation "/survey" none, []⟩ : NavigationController Unit)
        "/other" none).current = createLocation "/survey" none
      ∧ (push (PreventingTransition.guards (PreventingTransition.Survey ⟨false, ""⟩))
        (fun _ => false) (⟨createLocation "/survey" none, []⟩ : NavigationController Unit)
        "/other" none).current = createLocation "/other" none :=
  ⟨((c6_prompt_blocks_navigation ⟨true, "pizza"⟩ ⟨createLocation "/survey" none, []⟩
      "/other" none (fun _ => false)).1 rfl rfl).2,
   (c6_prompt_blocks_navigation ⟨false, ""⟩ ⟨createLocation "/survey" none, []⟩
      "/other" none (fun _ => false)).2.1 rfl⟩

theorem string_length_pos_iff (v : String) : v.length > 0 ↔ v ≠ "" := by
  constructor
  · intro h e
    subst e
    exact absurd h (by decide)
  · intro h
    have : v.data ≠ [] := fun e => h (String.ext e)
    exact List.length_pos.mpr this

theorem survey_invariant_run (events : List PreventingTransition.Event) :
    ∀ s : PreventingTransition.SurveyState, (s.isBlocking = true → s.food ≠ "") →
      ((PreventingTransition.run s events).isBlocking = true →
        (PreventingTransition.run s events).food ≠ "") := by
  induction events with
  | nil => intro s h; exact h
  | cons e es ih =>
    intro s _
    have hstep : PreventingTransition.run s (e :: es)
        = PreventingTransition.run (PreventingTransition.step s e) es := rfl
    rw [hstep]
    apply ih
    cases e with
    | change value =>
      intro hb
      have : value.length > 0 := by
        simpa [PreventingTransition.step, PreventingTransition.handleChange] using hb
      exact (string_length_pos_iff value).mp this
    | submit =>
      intro hb
      simp [PreventingTransition.step, PreventingTransition.handleSubmit] at hb

/-- C8: starting from `food = ""`, `isBlocking = false`, after every sequence
of `handleChange` and `handleSubmit` events `isBlocking` implies that `food`
is non-empty.  Right after `handleChange`, `isBlocking` holds if and only if
the entered food is non-empty (and `food` is the entered value); right after
`handleSubmit`, `isBlocking` is false and `food` is unchanged, so the
thank-you view is shown if and only if `food` is non-empty. -/
theorem c8_survey_state_invariant (events : List PreventingTransition.Event)
    (s : PreventingTransition.SurveyState) (value : String) :
    ((PreventingTransition.run PreventingTransition.initial events).isBlocking = true →
        (PreventingTransition.run PreventingTransition.initial events).food ≠ "")
      ∧ ((PreventingTransition.handleChange value s).isBlocking = true ↔ value ≠ "")
      ∧ (PreventingTransition.handleChange value s).food = value
      ∧ (PreventingTransition.handleSubmit s).isBlocking = false
      ∧ (PreventingTransition.handleSubmit s).food = s.food
      ∧ (PreventingTransition.Survey (PreventingTransition.handleSubmit s)
            = PreventingTransition.SurveyView.thankYou ↔ s.food ≠ "") := by
  refine ⟨survey_invariant_run events _ (by decide), ?_, rfl, rfl, rfl, ?_⟩
  · rw [← string_length_pos_iff]
    simp [PreventingTransition.handleChange]
  · by_cases h : s.food = "" <;>
      simp [PreventingTransition.Survey, PreventingTransition.handleSubmit, h]

theorem c8_survey_state_invariant_witness :
    (PreventingTransition.run PreventingTransition.initial
        [PreventingTransition.Event.change "pizza"]).isBlocking = true
      ∧ (PreventingTransition.run PreventingTransition.initial
        [PreventingTransition.Event.change "pizza"]).food ≠ "" :=
  ⟨by decide,
   (c8_survey_state_invariant [PreventingTransition.Event.change "pizza"]
      PreventingTransition.initial "pizza").1 (by decide)⟩

theorem settle_two (fuel : Nat) (s : ProtectedRoutes.AppState)
    (target : Location ProtectedRoutes.FromState)
    (h1 : ProtectedRoutes.firstRedirect (ProtectedRoutes.App s) = some target)
    (h2 : ProtectedRoutes.firstRedirect
        (ProtectedRoutes.App
          (ProtectedRoutes.remount
            { s with nav := replace [] (fun _ => true) s.nav target })) = none) :
    ProtectedRoutes.settle (fuel + 2) s
      = ProtectedRoutes.remount { s with nav := replace [] (fun _ => true) s.nav target } := by
  rw [ProtectedRoutes.settle]
  simp only [h1]
  rw [ProtectedRoutes.settle]
  simp only [h2]

theorem protected_request_redirected (fuel : Nat) :
    ProtectedRoutes.step (fuel + 2) ProtectedRoutes.initial
        (ProtectedRoutes.Event.navigate "/notifications")
      = ⟨false,
         ⟨⟨"/login", "", some (ProtectedRoutes.FromState.from ⟨"/notifications", "", none⟩)⟩,
          [⟨"/", "", none⟩]⟩,
         false, false⟩ := by
  rw [ProtectedRoutes.step]
  refine Eq.trans (congrArg (ProtectedRoutes.settle (fuel + 2))
    (?_ : _ = (⟨false, ⟨⟨"/notifications", "", none⟩, [⟨"/", "", none⟩]⟩, false, false⟩ :
      ProtectedRoutes.AppState))) ?_
  · rfl
  · refine Eq.trans (settle_two fuel _
      ⟨"/login", "", some (ProtectedRoutes.FromState.from ⟨"/notifications", "", none⟩)⟩
      ?_ ?_) ?_ <;> rfl

theorem protected_login_returns (fuel : Nat) :
    ProtectedRoutes.step (fuel + 2)
        (ProtectedRoutes.step (fuel + 2)
          ⟨false,
           ⟨⟨"/login", "", some (ProtectedRoutes.FromState.from ⟨"/notifications", "", none⟩)⟩,
            [⟨"/", "", none⟩]⟩,
           false, false⟩
          ProtectedRoutes.Event.clickLogin)
        ProtectedRoutes.Event.timerFired
      = ⟨true, ⟨⟨"/notifications", "", none⟩, [⟨"/", "", none⟩]⟩, false, false⟩ := by
  have hclick : ProtectedRoutes.step (fuel + 2)
      ⟨false,
       ⟨⟨"/login", "", some (ProtectedRoutes.FromState.from ⟨"/notifications", "", none⟩)⟩,
        [⟨"/", "", none⟩]⟩,
       false, false⟩
      ProtectedRoutes.Event.clickLogin
      = ⟨true,
         ⟨⟨"/login", "", some (ProtectedRoutes.FromState.from ⟨"/notifications", "", none⟩)⟩,
          [⟨"/", "", none⟩]⟩,
         false, true⟩ := rfl
  rw [hclick, ProtectedRoutes.step]
  simp only [if_true]
  refine Eq.trans (congrArg (ProtectedRoutes.settle (fuel + 2))
    (?_ : _ = (⟨true,
      ⟨⟨"/login", "", some (ProtectedRoutes.FromState.from ⟨"/notifications", "", none⟩)⟩,
       [⟨"/", "", none⟩]⟩,
      true, false⟩ : ProtectedRoutes.AppState))) ?_
  · rfl
  · refine Eq.trans (settle_two fuel _ ⟨"/notifications", "", none⟩ ?_ ?_) ?_ <;> rfl

/-- C7: whenever the location matches its path, `PrivateRoute` renders its
children if and only if `fakeAuth.isAuthenticated` is true, and otherwise
redirects to `/login` carrying `state.from` equal to the requested location.
`Login`, once `redirectToReferrer` is set, redirects to exactly that
`state.from`, or to `/` when no state was attached.  An unauthenticated
request for `/notifications` is redirected to `/login` with the log-in form
shown, and after the log-in it ends at `/notifications` with Notifications
rendered (for every bound of at least two on the redirects followed). -/
theorem c7_private_route_login_round_trip (isAuthenticated : Bool)
    (location referrer : Location ProtectedRoutes.FromState) (pathname search : String)
    (fuel : Nat)
    (hmatch : (matchPath "/notifications" location.pathname false).isSome = true) :
    (ProtectedRoutes.PrivateRoute "/notifications" ProtectedRoutes.Element.notifications
          isAuthenticated location = some ProtectedRoutes.Element.notifications
        ↔ isAuthenticated = true)
      ∧ ProtectedRoutes.PrivateRoute "/notifications" ProtectedRoutes.Element.notifications
          false location
          = some (ProtectedRoutes.Element.redirect
              ⟨"/login", "", some (ProtectedRoutes.FromState.from location)⟩)
      ∧ ProtectedRoutes.Login true
          ⟨pathname, search, some (ProtectedRoutes.FromState.from referrer)⟩
          = ProtectedRoutes.Element.redirect referrer
      ∧ ProtectedRoutes.Login true ⟨pathname, search, none⟩
          = ProtectedRoutes.Element.redirect ⟨"/", "", none⟩
      ∧ (ProtectedRoutes.step (fuel + 2) ProtectedRoutes.initial
            (ProtectedRoutes.Event.navigate "/notifications")).nav.current
          = ⟨"/login", "", some (ProtectedRoutes.FromState.from ⟨"/notifications", "", none⟩)⟩
      ∧ ProtectedRoutes.App (ProtectedRoutes.step (fuel + 2) ProtectedRoutes.initial
            (ProtectedRoutes.Event.navigate "/notifications"))
          = [ProtectedRoutes.Element.loginForm]
      ∧ (ProtectedRoutes.step (fuel + 2)
            (ProtectedRoutes.step (fuel + 2)
              (ProtectedRoutes.step (fuel + 2) ProtectedRoutes.initial
                (ProtectedRoutes.Event.navigate "/notifications"))
              ProtectedRoutes.Event.clickLogin)
            ProtectedRoutes.Event.timerFired).nav.current
          = ⟨"/notifications", "", none⟩
      ∧ ProtectedRoutes.App
          (ProtectedRoutes.step (fuel + 2)
            (ProtectedRoutes.step (fuel + 2)
              (ProtectedRoutes.step (fuel + 2) ProtectedRoutes.initial
                (ProtectedRoutes.Event.navigate "/notifications"))
              ProtectedRoutes.Event.clickLogin)
            ProtectedRoutes.Event.timerFired)
          = [ProtectedRoutes.Element.notifications] := by
  obtain ⟨m, hm⟩ := Option.isSome_iff_exists.mp hmatch
  have h1 := protected_request_redirected fuel
  have h3 := protected_login_returns fuel
  refine ⟨?_, ?_, rfl, rfl, ?_, ?_, ?_, ?_⟩
  · cases isAuthenticated <;> simp [ProtectedRoutes.PrivateRoute, hm]
  · simp [ProtectedRoutes.PrivateRoute, hm]
  · rw [h1]
  · rw [h1]; rfl
  · rw [h1, h3]
  · rw [h1, h3]; rfl

theorem c7_private_route_login_round_trip_witness :
    (matchPath "/notifications" "/notifications" false).isSome = true
      ∧ ProtectedRoutes.PrivateRoute "/notifications" ProtectedRoutes.Element.notifications
          false ⟨"/notifications", "", none⟩
          = some (ProtectedRoutes.Element.redirect
              ⟨"/login", "", some (ProtectedRoutes.FromState.from ⟨"/notifications", "", none⟩)⟩) :=
  ⟨by decide,
   (c7_private_route_login_round_trip false ⟨"/notifications", "", none⟩ ⟨"/", "", none⟩
      "/login" "" 0 (by decide)).2.1⟩

theorem lookupUser_key (id : String) (entry : QueryString.UserEntry)
    (h : QueryString.lookupUser id QueryString.users = some entry) :
    id ≠ "" ∧ id ∈ ["tylermcginnis", "sarah_edo", "dan_abramov"] := by
  unfold QueryString.users at h
  simp only [QueryString.lookupUser] at h
  by_cases h1 : "tylermcginnis" = id
  · subst h1; exact ⟨by decide, by decide⟩
  · by_cases h2 : "sarah_edo" = id
    · subst h2; exact ⟨by decide, by decide⟩
    · by_cases h3 : "dan_abramov" = id
      · subst h3; exact ⟨by decide, by decide⟩
      · simp [h1, h2, h3] at h

/-- C9: in the query-string example `User` renders the "Select a user"
placeholder whenever the parsed query has no `id` or an empty `id`, and for
every `id` that is a key of the `users` table it renders that entry's own
name, handle and avatar.  Every link declared in `App` carries an `id` that
is a key of `users`, so following any of the links renders that user's card
and never reaches a lookup of a missing user (for every percent-decoder that
leaves text without `%` and `+` as it is). -/
theorem c9_user_lookup_is_safe (parse : String → QueryString.Query) (search : String)
    (decode : String → String)
    (hdecode : ∀ t : String, '%' ∉ t.data → '+' ∉ t.data → decode t = t) :
    ((QueryString.Query.get "id" (parse search) = none
          ∨ QueryString.Query.get "id" (parse search)
              = some (QueryString.QueryValue.single "")) →
        QueryString.User parse search = some QueryString.UserView.selectUser)
      ∧ (∀ id entry, QueryString.lookupUser id QueryString.users = some entry →
          QueryString.Query.get "id" (parse search)
              = some (QueryString.QueryValue.single id) →
          QueryString.User parse search
            = some (QueryString.UserView.user ("Avatar for " ++ entry.name) entry.avatar
                ("https://twitter.com/" ++ entry.handle) entry.name))
      ∧ (∀ link ∈ QueryString.links, ∃ id entry,
          QueryString.Query.get "id"
              (QueryString.parse decode (createLocation link none : Location Unit).search)
            = some (QueryString.QueryValue.single id)
          ∧ QueryString.lookupUser id QueryString.users = some entry
          ∧ QueryString.App (QueryString.parse decode) (createLocation link none)
            = some (some (QueryString.userCard entry))) := by
  refine ⟨?_, ?_, ?_⟩
  · rintro (h | h) <;> simp [QueryString.User, h]
  · intro id entry hlook hget
    have hne := (lookupUser_key id entry hlook).1
    simp [QueryString.User, hget, hne, QueryString.propertyKey, hlook, QueryString.userCard]
  · have hid : decode "id" = "id" := hdecode _ (by decide) (by decide)
    have h1 : decode "tylermcginnis" = "tylermcginnis" := hdecode _ (by decide) (by decide)
    have h2 : decode "sarah_edo" = "sarah_edo" := hdecode _ (by decide) (by decide)
    have h3 : decode "dan_abramov" = "dan_abramov" := hdecode _ (by decide) (by decide)
    have r1 : QueryString.rawPairs "?id=tylermcginnis" = [("id", "tylermcginnis")] := by decide
    have r2 : QueryString.rawPairs "?id=sarah_edo" = [("id", "sarah_edo")] := by decide
    have r3 : QueryString.rawPairs "?id=dan_abramov" = [("id", "dan_abramov")] := by decide
    have l1 : (createLocation "/?id=tylermcginnis" none : Location Unit)
        = ⟨"/", "?id=tylermcginnis", none⟩ := by decide
    have l2 : (createLocation "/?id=sarah_edo" none : Location Unit)
        = ⟨"/", "?id=sarah_edo", none⟩ := by decide
    have l3 : (createLocation "/?id=dan_abramov" none : Location Unit)
        = ⟨"/", "?id=dan_abramov", none⟩ := by decide
    have hm : matchPath "/" "/" false = some ⟨[], "/", ""⟩ := by decide
    intro link hlink
    simp only [QueryString.links, List.mem_cons, List.mem_singleton, List.not_mem_nil,
      or_false] at hlink
    rcases hlink with h | h | h
    · subst h
      refine ⟨"tylermcginnis", _, ?_, rfl, ?_⟩
      · simp [l1, QueryString.parse, r1, hid, h1, QueryString.Query.add, QueryString.Query.get]
      · simp [l1, QueryString.App, hm, QueryString.User, QueryString.parse, r1, hid, h1,
          QueryString.Query.add, QueryString.Query.get, QueryString.propertyKey]
        decide
    · subst h
      refine ⟨"sarah_edo", _, ?_, rfl, ?_⟩
      · simp [l2, QueryString.parse, r2, hid, h2, QueryString.Query.add, QueryString.Query.get]
      · simp [l2, QueryString.App, hm, QueryString.User, QueryString.parse, r2, hid, h2,
          QueryString.Query.add, QueryString.Query.get, QueryString.propertyKey]
        decide
    · subst h
      refine ⟨"dan_abramov", _, ?_, rfl, ?_⟩
      · simp [l3, QueryString.parse, r3, hid, h3, QueryString.Query.add, QueryString.Query.get]
      · simp [l3, QueryString.App, hm, QueryString.User, QueryString.parse, r3, hid, h3,
          QueryString.Query.add, QueryString.Query.get, QueryString.propertyKey]
        decide

theorem c9_user_lookup_is_safe_witness :
    (∀ t : String, '%' ∉ t.data → '+' ∉ t.data → id t = t)
      ∧ QueryString.User (QueryString.parse id) "?id=dan_abramov"
          = some (QueryString.UserView.user ("Avatar for " ++ "Dan Abramov")
              "https://res.cloudinary.com/uidotdev/image/twitter_name/dan_abramov"
              ("https://twitter.com/" ++ "dan_abramov") "Dan Abramov") :=
  ⟨fun _ _ _ => rfl,
   (c9_user_lookup_is_safe (QueryString.parse id) "?id=dan_abramov" id
      (fun _ _ _ => rfl)).2.1 "dan_abramov"
      ⟨"Dan Abramov", "dan_abramov",
       "https://res.cloudinary.com/uidotdev/image/twitter_name/dan_abramov"⟩
      (by decide) (by decide)⟩

end ReactRouterV5
